import Mathlib

/-!
Verification of the zod-request library's request-validation core.

The TypeScript sources under `packages/zod-request/src` are shallowly
embedded below:

* `utils.ts` — `isArraySchema`, `extractSearchParamsObject`,
  `extractHeadersObject`;
* `constants.ts` — the error-message constants;
* `http-method.ts` / `protocol.ts` — the closed enumerations and their
  eager literal builders;
* `body-schema.ts` — the content-type-dispatched body validator;
* `request-schema.ts` — the composite request validator.

Host-runtime capabilities (JSON decoding, `FormData` decoding, stream
reads, `URLSearchParams` construction) are modelled as data carried by the
request value: each decode capability is an `Except`-valued oracle giving
the outcome the host would produce.  Nested engine validators (the `zod`
schemas supplied by the caller) are modelled as abstract functions from a
value to a validation outcome.  Thrown JavaScript errors are modelled as
`Except.error`.
-/

namespace ZodRequest

/-- JavaScript runtime values as consumed and produced by the validators. -/
inductive JsValue where
  | undef
  | null
  | boolean (b : Bool)
  | num (n : Int)
  | str (s : String)
  | arr (elems : List JsValue)
  | obj (fields : List (String × JsValue))
deriving Repr

/-- One entry of a structured `ZodError` issue list: `{ code, path, message }`. -/
structure ZodIssue where
  code : String
  path : List String
  message : String
deriving DecidableEq, Repr

/-- An error escaping a validator: either a plain thrown `Error` (by its
message) or a structured `ZodError` (by its issue list). -/
inductive VErr where
  | str (msg : String)
  | zod (issues : List ZodIssue)
deriving DecidableEq, Repr

/-! ## constants.ts -/

/-- Error-message constant from `constants.ts`. -/
def ERROR_EXPECTED_REQUEST : String := "Expected Request"

/-- Error-message constant from `constants.ts`. -/
def ERROR_EXPECTED_URL_SEARCH_PARAMS : String := "Expected URLSearchParams or string"

/-- Error-message constant from `constants.ts` (placeholder `{name}` is
substituted by `String.replace`). -/
def ERROR_UNABLE_TO_EXTRACT_BASE_SCHEMA : String :=
  "Unable to extract base schema from preprocessed {name} schema. This may be a Zod v4 compatibility issue."

/-- Error-message constant from `constants.ts` (placeholder `{key}` is
substituted by `String.replace`; the template holds the placeholder once, so
replace-all and replace-first coincide). -/
def ERROR_MULTIPLE_VALUES_SINGLE_SCHEMA : String :=
  "Multiple values found for parameter \"{key}\" but schema expects a single value. Use an array schema (e.g., z.array(z.string())) to accept multiple values."

/-! ## String helpers

`strIncludes s sub` models JavaScript's `s.includes(sub)`. -/

/-- Character-list substring test: does `s` contain `sub` as a contiguous
run?  (`[] ` contains only the empty list.) -/
def charsInclude (s sub : List Char) : Bool :=
  match s with
  | [] => sub.isEmpty
  | _ :: t => sub.isPrefixOf s || charsInclude t sub

/-- Models JavaScript `String.prototype.includes`. -/
def strIncludes (s sub : String) : Bool :=
  charsInclude s.toList sub.toList

/-- Models JavaScript `String.prototype.startsWith`. -/
def strStartsWith (s sub : String) : Bool :=
  sub.toList.isPrefixOf s.toList

lemma charsInclude_append (x y sub : List Char) (h : charsInclude y sub = true) :
    charsInclude (x ++ y) sub = true := by
  induction x with
  | nil => simpa using h
  | cons c t ih =>
    simp [charsInclude, ih]

/-! ## utils.ts — field-kind inspection and multi-valued extraction -/

/-- The container kind recorded in a zod field schema's definition
(`_def.type` / `_def.typeName`); only "is it an array schema" is ever
inspected by the library. -/
inductive ZodDefType where
  | array
  | string
  | number
  | object
  | other
deriving DecidableEq, Repr

/-- A declared per-field rule, carrying the container kind that
`isArraySchema` inspects. -/
structure FieldSchema where
  defType : ZodDefType
deriving DecidableEq, Repr

/-- Models `isArraySchema` (utils.ts:9-16): `undefined` field schemas are
not array schemas; otherwise the schema's declared container kind decides
(the source checks the v3 `_def.typeName === "ZodArray"` and v4
`_def.type === "array"` encodings of that same kind). -/
def isArraySchema (fieldSchema : Option FieldSchema) : Bool :=
  match fieldSchema with
  | none => false
  | some f => f.defType == ZodDefType.array

/-- The multi-valued key/value source handed to
`extractSearchParamsObject`: either a genuine multi-map (a
`URLSearchParams`, or an object with `getAll`) holding its entries in
source order, or an object exposing only `get`. -/
inductive ParamsSource where
  | multi (entries : List (String × String))
  | getOnly (get : String → Option String)

/-- Models utils.ts:56-66: all values the source holds for `key` —
`getAll key` for multi-map sources, and the `get key` fallback (wrapped in
a one-element list, or empty when `get` yields `null`) for get-only
sources. -/
def getAllValues (params : ParamsSource) (key : String) : List String :=
  match params with
  | .multi entries => (entries.filter (fun p => p.1 == key)).map (·.2)
  | .getOnly get =>
    match get key with
    | some value => [value]
    | none => []

/-- The value recorded for one declared key by the extraction:
`string | string[] | undefined`. -/
inductive ExtractedVal where
  | undef
  | str (s : String)
  | arr (values : List String)
deriving DecidableEq, Repr

/-- The structured issue thrown at utils.ts:70-76 when a key holds several
values but its rule is not an array rule: code `custom`, path `[key]`, and
the multiple-values message with the key's name substituted in. -/
def multipleValuesIssue (key : String) : ZodIssue :=
  { code := "custom", path := [key], message := ERROR_MULTIPLE_VALUES_SINGLE_SCHEMA.replace "{key}" key }

/-- Models utils.ts:68-85, the per-key step of `extractSearchParamsObject`:
more than one value against a non-array rule throws a structured error at
path `[key]`; an array rule always yields the whole value list (or
`undefined` when empty); a scalar rule yields the first value (or
`undefined` when empty). -/
def extractField (key : String) (isArr : Bool) (allValues : List String) :
    Except VErr ExtractedVal :=
  if 1 < allValues.length ∧ isArr = false then
    .error (.zod [multipleValuesIssue key])
  else if isArr then
    .ok (if allValues.isEmpty then .undef else .arr allValues)
  else
    .ok (match allValues with
      | [] => .undef
      | v :: _ => .str v)

/-- Models `extractSearchParamsObject` (utils.ts:40-88): walk the declared
shape in order, skip `undefined` field schemas (the `continue`), and record
one extracted value per declared key; the first offending key's structured
error aborts the walk (the `throw`). -/
def extractSearchParamsObject (params : ParamsSource)
    (shape : List (String × Option FieldSchema)) :
    Except VErr (List (String × ExtractedVal)) :=
  match shape with
  | [] => .ok []
  | (key, fieldSchema) :: rest =>
    match fieldSchema with
    | none => extractSearchParamsObject params rest
    | some f =>
      match extractField key (isArraySchema (some f)) (getAllValues params key) with
      | .error e => .error e
      | .ok v =>
        match extractSearchParamsObject params rest with
        | .error e => .error e
        | .ok tail => .ok ((key, v) :: tail)

/-- Models `extractHeadersObject` (utils.ts:96-106): for each declared key,
`get key`, mapping `null` to `undefined`. -/
def extractHeadersObject (get : String → Option String) (shapeKeys : List String) :
    List (String × Option String) :=
  shapeKeys.map (fun key => (key, get key))

/-! ## Claim C1 — array/scalar cardinality law of the extraction -/

/-- C1: for every declared field key, multi-valued extraction obeys the
cardinality law.  Scalar rule: zero source values yield `undefined`, one
value yields that value, more than one value fails with a structured error
at path `[key]` whose message names the key.  Array rule: zero values
yield `undefined`, one value a one-element array, several values the full
value list in source order. -/
theorem c1_cardinality_law (params : ParamsSource) (key : String) (f : FieldSchema) :
    (isArraySchema (some f) = false →
      (getAllValues params key = [] →
        extractSearchParamsObject params [(key, some f)] = .ok [(key, .undef)]) ∧
      (∀ v, getAllValues params key = [v] →
        extractSearchParamsObject params [(key, some f)] = .ok [(key, .str v)]) ∧
      (1 < (getAllValues params key).length →
        extractSearchParamsObject params [(key, some f)] =
          .error (.zod [multipleValuesIssue key]))) ∧
    (isArraySchema (some f) = true →
      (getAllValues params key = [] →
        extractSearchParamsObject params [(key, some f)] = .ok [(key, .undef)]) ∧
      (∀ v, getAllValues params key = [v] →
        extractSearchParamsObject params [(key, some f)] = .ok [(key, .arr [v])]) ∧
      (1 < (getAllValues params key).length →
        extractSearchParamsObject params [(key, some f)] =
          .ok [(key, .arr (getAllValues params key))])) := by
  constructor
  · intro hscalar
    refine ⟨?_, ?_, ?_⟩
    · intro h0
      simp [extractSearchParamsObject, extractField, hscalar, h0]
    · intro v h1
      simp [extractSearchParamsObject, extractField, hscalar, h1]
    · intro hmany
      simp only [extractSearchParamsObject, extractField]
      rw [if_pos ⟨hmany, hscalar⟩]
  · intro harr
    refine ⟨?_, ?_, ?_⟩
    · intro h0
      simp [extractSearchParamsObject, extractField, harr, h0]
    · intro v h1
      simp [extractSearchParamsObject, extractField, harr, h1]
    · intro hmany
      have hne : (getAllValues params key).isEmpty = false := by
        cases hv : getAllValues params key with
        | nil => rw [hv] at hmany; simp at hmany
        | cons a t => simp
      simp only [extractSearchParamsObject, extractField]
      rw [if_neg (by simp [harr]), if_pos harr]
      simp [hne]

/-- Closed witness for `c1_cardinality_law` at concrete inputs: duplicate
values for the scalar key `tag` fail at path `["tag"]`, while the same
source under an array rule yields both values in order. -/
theorem c1_cardinality_law_witness :
    (extractSearchParamsObject (.multi [("tag", "first"), ("tag", "second")])
        [("tag", some ⟨ZodDefType.string⟩)] =
      .error (.zod [multipleValuesIssue "tag"])) ∧
    (extractSearchParamsObject (.multi [("tag", "first"), ("tag", "second")])
        [("tag", some ⟨ZodDefType.array⟩)] =
      .ok [("tag", .arr ["first", "second"])]) := by
  constructor
  · exact (c1_cardinality_law (.multi [("tag", "first"), ("tag", "second")])
      "tag" ⟨ZodDefType.string⟩).1 (by decide) |>.2.2 (by decide)
  · have h := (c1_cardinality_law (.multi [("tag", "first"), ("tag", "second")])
      "tag" ⟨ZodDefType.array⟩).2 (by decide) |>.2.2 (by decide)
    simpa using h

/-! ## Claim C9 — empty string is a present value, not absence -/

/-- C9: a scalar-rule key whose source holds exactly one value equal to the
empty string extracts to the empty string, not `undefined`; a key with zero
values extracts to `undefined`. -/
theorem c9_empty_string_presence (params : ParamsSource) (key : String) (f : FieldSchema)
    (hscalar : isArraySchema (some f) = false) :
    (getAllValues params key = [""] →
      extractSearchParamsObject params [(key, some f)] = .ok [(key, .str "")]) ∧
    (getAllValues params key = [] →
      extractSearchParamsObject params [(key, some f)] = .ok [(key, .undef)]) := by
  constructor
  · intro h1
    simp [extractSearchParamsObject, extractField, hscalar, h1]
  · intro h0
    simp [extractSearchParamsObject, extractField, hscalar, h0]

/-- Closed witness for `c9_empty_string_presence`: a source holding
`empty=` (one empty-string value) extracts the empty string, and a source
without the key extracts `undefined`. -/
theorem c9_empty_string_presence_witness :
    (extractSearchParamsObject (.multi [("empty", "")])
        [("empty", some ⟨ZodDefType.string⟩)] = .ok [("empty", .str "")]) ∧
    (extractSearchParamsObject (.multi [])
        [("empty", some ⟨ZodDefType.string⟩)] = .ok [("empty", .undef)]) := by
  constructor
  · exact (c9_empty_string_presence (.multi [("empty", "")]) "empty"
      ⟨ZodDefType.string⟩ (by decide)).1 (by decide)
  · exact (c9_empty_string_presence (.multi []) "empty"
      ⟨ZodDefType.string⟩ (by decide)).2 (by decide)

/-! ## Claim C10 — get-only sources never trigger the cardinality error -/

lemma getOnly_length_le_one (g : String → Option String) (key : String) :
    (getAllValues (.getOnly g) key).length ≤ 1 := by
  cases h : g key <;> simp [getAllValues, h]

lemma extractField_ok_of_le_one (key : String) (isArr : Bool) (allValues : List String)
    (h : allValues.length ≤ 1) : ∃ v, extractField key isArr allValues = .ok v := by
  unfold extractField
  rw [if_neg (by rintro ⟨hlt, -⟩; omega)]
  cases isArr <;> simp

lemma extract_getOnly_isOk (g : String → Option String)
    (shape : List (String × Option FieldSchema)) :
    ∃ out, extractSearchParamsObject (.getOnly g) shape = .ok out := by
  induction shape with
  | nil => exact ⟨[], rfl⟩
  | cons hd rest ih =>
    obtain ⟨tail, htail⟩ := ih
    obtain ⟨key, fieldSchema⟩ := hd
    cases fieldSchema with
    | none => exact ⟨tail, by simpa [extractSearchParamsObject] using htail⟩
    | some f =>
      obtain ⟨v, hv⟩ := extractField_ok_of_le_one key (isArraySchema (some f))
        (getAllValues (.getOnly g) key) (getOnly_length_le_one g key)
      exact ⟨(key, v) :: tail, by simp [extractSearchParamsObject, hv, htail]⟩

/-- C10: a source exposing only `get` yields at most one value per key — a
one-element list when `get` returns a value, the empty list when it returns
`null` — so extraction from such a source never fails with the
multiple-values error, whatever the declared shape. -/
theorem c10_get_only_never_cardinality_error (g : String → Option String) :
    (∀ key v, g key = some v → getAllValues (.getOnly g) key = [v]) ∧
    (∀ key, g key = none → getAllValues (.getOnly g) key = []) ∧
    (∀ key, (getAllValues (.getOnly g) key).length ≤ 1) ∧
    (∀ shape, ∃ out, extractSearchParamsObject (.getOnly g) shape = .ok out) := by
  refine ⟨?_, ?_, fun key => getOnly_length_le_one g key,
    fun shape => extract_getOnly_isOk g shape⟩
  · intro key v h
    simp [getAllValues, h]
  · intro key h
    simp [getAllValues, h]

/-- Closed witness for `c10_get_only_never_cardinality_error` at a concrete
get-only source and a shape that demands a scalar for the present key. -/
theorem c10_get_only_never_cardinality_error_witness :
    getAllValues (.getOnly (fun k => if k = "name" then some "John" else none)) "name" =
      ["John"] ∧
    ∃ out, extractSearchParamsObject
      (.getOnly (fun k => if k = "name" then some "John" else none))
      [("name", some ⟨ZodDefType.string⟩), ("extra", some ⟨ZodDefType.string⟩)] =
      .ok out := by
  refine ⟨?_, ?_⟩
  · exact (c10_get_only_never_cardinality_error
      (fun k => if k = "name" then some "John" else none)).1 "name" "John" (by simp)
  · exact (c10_get_only_never_cardinality_error
      (fun k => if k = "name" then some "John" else none)).2.2.2
      [("name", some ⟨ZodDefType.string⟩), ("extra", some ⟨ZodDefType.string⟩)]

/-! ## http-method.ts / protocol.ts — closed enumerations, eager literal builders -/

/-- The closed set of standard HTTP methods (http-method.ts:6-14). -/
def HTTP_METHODS : List String :=
  ["GET", "POST", "PUT", "PATCH", "DELETE", "HEAD", "OPTIONS"]

/-- The closed set of valid protocols (protocol.ts:7). -/
def PROTOCOLS : List String := ["http", "https"]

/-- The validator returned by the exact-literal builders: `z.literal(value)`. -/
structure LiteralValidator where
  value : String
deriving DecidableEq, Repr

/-- Models parsing with `z.literal(value)`: only the exact (case-sensitive)
string is accepted; `null`, `undefined`, numbers, booleans, arrays and
objects are rejected. -/
def literalAccepts (lit : LiteralValidator) (v : JsValue) : Bool :=
  match v with
  | .str s => s == lit.value
  | _ => false

/-- Models `httpMethodSchema` (http-method.ts:21-32): throws at construction
time when the argument is outside the closed method set — the thrown message
names the offending value and joins every valid member — and otherwise
returns the exact-literal validator for that value. -/
def httpMethodSchema (method : String) : Except String LiteralValidator :=
  if ¬ HTTP_METHODS.contains method then
    .error ("Invalid HTTP method: \"" ++ method ++ "\". Must be one of: " ++
      String.intercalate ", " HTTP_METHODS)
  else
    .ok { value := method }

/-- Models `protocolSchema` (protocol.ts:11-20): the same eager
construction-time check over the protocol set. -/
def protocolSchema (protocol : String) : Except String LiteralValidator :=
  if ¬ PROTOCOLS.contains protocol then
    .error ("Invalid protocol: \"" ++ protocol ++ "\". Must be one of: " ++
      String.intercalate ", " PROTOCOLS)
  else
    .ok { value := protocol }

lemma strIncludes_append_right (a b sub : String) (h : strIncludes b sub = true) :
    strIncludes (a ++ b) sub = true := by
  unfold strIncludes at h ⊢
  rw [show (a ++ b).toList = a.toList ++ b.toList from String.data_append a b]
  exact charsInclude_append _ _ _ h

/-! ## Claim C8 — eager construction-time validation of literal builders -/

/-- C8: the exact-literal builders validate eagerly at construction time.
A value outside the closed set makes the builder itself fail (a thrown
construction error, not a validation-time error) with a message containing
every valid member; a value inside the set yields a validator that accepts
exactly that string value and nothing else. -/
theorem c8_literal_builders_eager (m p : String) :
    (m ∉ HTTP_METHODS →
      httpMethodSchema m = .error ("Invalid HTTP method: \"" ++ m ++
          "\". Must be one of: " ++ String.intercalate ", " HTTP_METHODS) ∧
      ∀ valid ∈ HTTP_METHODS,
        strIncludes ("Invalid HTTP method: \"" ++ m ++ "\". Must be one of: " ++
          String.intercalate ", " HTTP_METHODS) valid = true) ∧
    (m ∈ HTTP_METHODS → ∃ lit, httpMethodSchema m = .ok lit ∧ lit.value = m ∧
      ∀ v, literalAccepts lit v = true ↔ v = .str m) ∧
    (p ∉ PROTOCOLS →
      protocolSchema p = .error ("Invalid protocol: \"" ++ p ++
          "\". Must be one of: " ++ String.intercalate ", " PROTOCOLS) ∧
      ∀ valid ∈ PROTOCOLS,
        strIncludes ("Invalid protocol: \"" ++ p ++ "\". Must be one of: " ++
          String.intercalate ", " PROTOCOLS) valid = true) ∧
    (p ∈ PROTOCOLS → ∃ lit, protocolSchema p = .ok lit ∧ lit.value = p ∧
      ∀ v, literalAccepts lit v = true ↔ v = .str p) := by
  refine ⟨?_, ?_, ?_, ?_⟩
  · intro hm
    refine ⟨by simp [httpMethodSchema, hm], ?_⟩
    intro valid hv
    apply strIncludes_append_right
    fin_cases hv <;> decide
  · intro hm
    refine ⟨⟨m⟩, by simp [httpMethodSchema, hm], rfl, ?_⟩
    intro v
    cases v <;> simp [literalAccepts]
  · intro hp
    refine ⟨by simp [protocolSchema, hp], ?_⟩
    intro valid hv
    apply strIncludes_append_right
    fin_cases hv <;> decide
  · intro hp
    refine ⟨⟨p⟩, by simp [protocolSchema, hp], rfl, ?_⟩
    intro v
    cases v <;> simp [literalAccepts]

/-- Closed witness for `c8_literal_builders_eager`: building a method
validator from `"FETCH"` fails at construction with the full member list in
the message, building one from `"GET"` succeeds with an exact-literal
validator, and the protocol builder behaves alike on `"ftp"`. -/
theorem c8_literal_builders_eager_witness :
    ("FETCH" ∉ HTTP_METHODS ∧ httpMethodSchema "FETCH" =
      .error "Invalid HTTP method: \"FETCH\". Must be one of: GET, POST, PUT, PATCH, DELETE, HEAD, OPTIONS") ∧
    (∃ lit, httpMethodSchema "GET" = .ok lit ∧ lit.value = "GET" ∧
      ∀ v, literalAccepts lit v = true ↔ v = .str "GET") ∧
    ("ftp" ∉ PROTOCOLS ∧ protocolSchema "ftp" =
      .error "Invalid protocol: \"ftp\". Must be one of: http, https") := by
  have h := c8_literal_builders_eager "FETCH" "ftp"
  have hg := (c8_literal_builders_eager "GET" "https").2.1 (by decide)
  refine ⟨⟨by decide, ?_⟩, hg, ⟨by decide, ?_⟩⟩
  · exact (h.1 (by decide)).1
  · exact (h.2.2.1 (by decide)).1

/-! ## The request model

Host decode capabilities (`json()`, `formData()`, `text()`, clone-based
reads) are oracles carried by the request value: each gives the outcome the
host would produce on the pristine body.  A successful decode of the
request itself marks its stream disturbed; decodes of clones leave the
original stream untouched. -/

/-- The state of a request's body stream: its (abstract) content and
whether the stream has already been read. -/
structure BodyStream where
  data : String
  disturbed : Bool
deriving DecidableEq, Repr

/-- One entry yielded by decoding a body as FormData: a string field or a
binary/file entry. -/
inductive FormEntry where
  | str (s : String)
  | file
deriving DecidableEq, Repr

/-- Structured components of the request's already-parsed absolute URL, as
the host's `new URL(...)` exposes them: `protocol` keeps its trailing ":",
`search` keeps its leading "?" (or is empty). -/
structure URLModel where
  href : String
  protocol : String
  hostname : String
  pathname : String
  search : String
deriving DecidableEq, Repr

/-- A request-like object with its decode oracles. -/
structure Req where
  urlM : URLModel
  method : String
  mode : String
  headersList : List (String × String)
  bodyStream : Option BodyStream
  jsonDecode : Except String JsValue
  formDataDecode : Except String (List (String × FormEntry))
  textDecode : Except String String
  cloneTextDecode : Except String String
  strippedFormDataDecode : Except String (List (String × FormEntry))

/-- Single-valued lookup, modelling `Headers.get`.  The host's `Headers`
store is case-insensitive because it normalizes names to lowercase
internally; the model keeps `headersList` lowercase-normalized and every
name the library looks up ("content-type") is already lowercase, so the
lookup is an exact match. -/
def headersLookup (hs : List (String × String)) (key : String) : Option String :=
  (hs.find? (fun p => p.1 == key)).map (·.2)

/-- The request's `headers.get key`. -/
def headersGet (req : Req) (key : String) : Option String :=
  headersLookup req.headersList key

/-- Marks the request's body stream as read. -/
def consumeBody (req : Req) : Req :=
  { req with bodyStream := req.bodyStream.map (fun s => { s with disturbed := true }) }

/-- The value handed to a validator's preprocess step: a `Request`
instance, or anything else (which fails the `instanceof` check). -/
inductive ReqInput where
  | request (r : Req)
  | notRequest

/-- An engine validator supplied by the caller: parsing yields the
validated value or a structured failure. -/
def ZodSchema : Type := JsValue → Except VErr JsValue

/-! ## body-schema.ts — content-type-dispatched body validation -/

/-- The up-to-three body category schemas accepted by `bodySchema`. -/
structure BodySchemas where
  json : Option ZodSchema
  formData : Option ZodSchema
  text : Option ZodSchema

/-- Splits one `k=v` piece at its first "=" (no "=" gives an empty value). -/
def splitKV (piece : String) : String × String :=
  match piece.splitOn "=" with
  | [] => (piece, "")
  | [k] => (k, "")
  | k :: rest => (k, String.intercalate "=" rest)

/-- Models the host's `new URLSearchParams(text)` on a query string:
tolerates one leading "?", splits on "&", drops empty pieces, splits each
piece at its first "=", and turns "+" into a space.  (Percent-decoding is
a host detail no claim depends on; it is left out.) -/
def parseQueryString (s : String) : List (String × String) :=
  let s1 := if strStartsWith s "?" then s.drop 1 else s
  if s1.isEmpty then []
  else ((s1.splitOn "&").filter (fun p => ¬ p.isEmpty)).map (fun p =>
    ((splitKV p).1.replace "+" " ", (splitKV p).2.replace "+" " "))

/-- JavaScript object key assignment: overwrite an existing key in place,
else append (insertion order preserved). -/
def objSet (obj : List (String × α)) (key : String) (v : α) : List (String × α) :=
  if obj.any (fun p => p.1 == key) then
    obj.map (fun p => if p.1 == key then (key, v) else p)
  else
    obj ++ [(key, v)]

/-- Models body-schema.ts:126-130 (and 64-69): build the field map from
decoded FormData entries; string values are kept, file entries set the key
to `undefined`. -/
def formEntriesToObj (entries : List (String × FormEntry)) : List (String × Option String) :=
  entries.foldl (fun obj kv =>
    objSet obj kv.1 (match kv.2 with | .str s => some s | .file => none)) []

/-- Models body-schema.ts:76-80: build the field map from URL-encoded
pairs. -/
def urlPairsToObj (pairs : List (String × String)) : List (String × Option String) :=
  pairs.foldl (fun obj kv => objSet obj kv.1 (some kv.2)) []

/-- The built `Record<string, string | undefined>` as a JavaScript value. -/
def objToJsValue (obj : List (String × Option String)) : JsValue :=
  .obj (obj.map (fun kv => (kv.1, match kv.2 with | some s => JsValue.str s | none => JsValue.undef)))

/-- Models body-schema.ts:41-47, the structured-data (JSON) branch: require
a body, decode the stream as JSON, validate with the declared schema and
wrap the result. -/
def jsonBranch (jsonSchema : ZodSchema) (val : Req) : Except VErr (JsValue × Req) :=
  if ¬ val.bodyStream.isSome then
    .error (.str "Request body is required for JSON schema")
  else
    match val.jsonDecode with
    | .error e => .error (.str e)
    | .ok j =>
      match jsonSchema j with
      | .error e => .error e
      | .ok parsed => .ok (.obj [("body", parsed)], consumeBody val)

/-- Shared tail of the form branch (body-schema.ts:133): validate the built
field map against the form schema and wrap the result. -/
def finishForm (formSchema : ZodSchema) (obj : List (String × Option String)) (post : Req) :
    Except VErr (JsValue × Req) :=
  match formSchema (objToJsValue obj) with
  | .error e => .error e
  | .ok parsed => .ok (.obj [("body", parsed)], post)

/-- Models body-schema.ts:60-85, the url-encoded path: try the request's
own `formData()` first; on its failure fall back to reading a clone's text
and parsing that as URL-encoded parameters; if both fail, rethrow the
original `formData()` failure. -/
def urlEncodedPath (formSchema : ZodSchema) (val : Req) : Except VErr (JsValue × Req) :=
  match val.formDataDecode with
  | .ok formData => finishForm formSchema (formEntriesToObj formData) (consumeBody val)
  | .error formDataError =>
    match val.cloneTextDecode with
    | .ok text => finishForm formSchema (urlPairsToObj (parseQueryString text)) val
    | .error _ => .error (.str formDataError)

/-- Models body-schema.ts:86-131, the multipart path: when the content-type
header names multipart without a boundary parameter, first decode a clone
whose content-type header was removed (reading the clone, not the
original); if that fails fall back to the original request, whose failure
is the one propagated.  With a boundary (or no such header) decode the
request directly. -/
def hasMultipartNoBoundary (val : Req) : Bool :=
  match headersGet val "content-type" with
  | some h => strIncludes h "multipart/form-data" && ! strIncludes h "boundary="
  | none => false

def multipartPath (formSchema : ZodSchema) (val : Req) : Except VErr (JsValue × Req) :=
  if hasMultipartNoBoundary val then
    match val.strippedFormDataDecode with
    | .ok formData => finishForm formSchema (formEntriesToObj formData) val
    | .error _cloneError =>
      match val.formDataDecode with
      | .ok formData => finishForm formSchema (formEntriesToObj formData) (consumeBody val)
      | .error originalError => .error (.str originalError)
  else
    match val.formDataDecode with
    | .ok formData => finishForm formSchema (formEntriesToObj formData) (consumeBody val)
    | .error e => .error (.str e)

/-- Models body-schema.ts:50-134, the form branch: require a body, then
take the url-encoded or the multipart path by content-type. -/
def formBranch (formSchema : ZodSchema) (contentType : String) (val : Req) :
    Except VErr (JsValue × Req) :=
  if ¬ val.bodyStream.isSome then
    .error (.str "Request body is required for FormData schema")
  else if strIncludes contentType "application/x-www-form-urlencoded" then
    urlEncodedPath formSchema val
  else
    multipartPath formSchema val

/-- Models body-schema.ts:141-147, the text branch (taken when a text
schema is declared and the content-type is empty or `text/*`): require a
body, decode it as text and validate the string. -/
def textBranch (textSchema : ZodSchema) (val : Req) : Except VErr (JsValue × Req) :=
  if ¬ val.bodyStream.isSome then
    .error (.str "Request body is required for text schema")
  else
    match val.textDecode with
    | .error e => .error (.str e)
    | .ok t =>
      match textSchema (.str t) with
      | .error e => .error e
      | .ok parsed => .ok (.obj [("body", parsed)], consumeBody val)

/-- Models body-schema.ts:150-174: no branch matched.  With at least one
declared category, a missing body fails with "Request body is required";
otherwise the Content-Type mismatch error enumerates the expected media
types of the declared categories and echoes the received content-type (or
a placeholder when it is empty).  With no category declared at all the
result is an `undefined` body with no error. -/
def noMatchBranch (schemas : BodySchemas) (contentType : String) (val : Req) :
    Except VErr (JsValue × Req) :=
  if schemas.json.isSome || schemas.formData.isSome || schemas.text.isSome then
    if ¬ val.bodyStream.isSome then
      .error (.str "Request body is required")
    else
      .error (.str ("Content-Type mismatch. Expected one of: " ++
        String.intercalate ", "
          ((if schemas.json.isSome then ["application/json"] else []) ++
           (if schemas.formData.isSome then
             ["multipart/form-data", "application/x-www-form-urlencoded"] else []) ++
           (if schemas.text.isSome then ["text/*"] else [])) ++
        ", but got: " ++
        (if contentType = "" then "(no content-type header)" else contentType)))
  else
    .ok (.obj [("body", JsValue.undef)], val)

/-- Third step of the dispatch chain (body-schema.ts:136-148): the text
branch is tried only when a text schema is declared and the content-type
is empty or `text/*`; anything else falls through to the no-match tail. -/
def bodySchemaParseText (schemas : BodySchemas) (contentType : String) (val : Req) :
    Except VErr (JsValue × Req) :=
  match schemas.text with
  | some textSchema =>
    if strStartsWith contentType "text/" || contentType = "" then
      textBranch textSchema val
    else
      noMatchBranch schemas contentType val
  | none => noMatchBranch schemas contentType val

/-- Second step of the dispatch chain (body-schema.ts:49-134): the form
branch is tried when a form schema is declared and the content-type names
multipart or url-encoded data; anything else falls through. -/
def bodySchemaParseForm (schemas : BodySchemas) (contentType : String) (val : Req) :
    Except VErr (JsValue × Req) :=
  match schemas.formData with
  | some formSchema =>
    if strIncludes contentType "multipart/form-data" ||
        strIncludes contentType "application/x-www-form-urlencoded" then
      formBranch formSchema contentType val
    else
      bodySchemaParseText schemas contentType val
  | none => bodySchemaParseText schemas contentType val

/-- Models the preprocess step of `bodySchema` (body-schema.ts:30-179): the
`instanceof Request` guard, then the structured-data, form and text
branches tried in that fixed priority order on the content-type, then the
no-match tail.  The result pairs the produced `{ body: ... }` wrapper with
the request state after the parse. -/
def bodySchemaParse (schemas : BodySchemas) (input : ReqInput) :
    Except VErr (JsValue × Req) :=
  match input with
  | .notRequest => .error (.str ERROR_EXPECTED_REQUEST)
  | .request val =>
    match schemas.json with
    | some jsonSchema =>
      if strIncludes ((headersGet val "content-type").getD "") "application/json" then
        jsonBranch jsonSchema val
      else
        bodySchemaParseForm schemas ((headersGet val "content-type").getD "") val
    | none => bodySchemaParseForm schemas ((headersGet val "content-type").getD "") val

/-! ## Dispatch case analysis -/

lemma bodySchemaParseText_cases (schemas : BodySchemas) (ct : String) (val : Req) :
    (∃ ts, schemas.text = some ts ∧ (strStartsWith ct "text/" || ct = "") = true ∧
      bodySchemaParseText schemas ct val = textBranch ts val) ∨
    ((schemas.text.isSome && (strStartsWith ct "text/" || ct = "")) = false ∧
      bodySchemaParseText schemas ct val = noMatchBranch schemas ct val) := by
  cases ht : schemas.text with
  | some ts =>
    by_cases hc : (strStartsWith ct "text/" || decide (ct = "")) = true
    · exact Or.inl ⟨ts, rfl, hc, by simp [bodySchemaParseText, ht, hc]⟩
    · have hc' : (strStartsWith ct "text/" || decide (ct = "")) = false := by
        simpa using hc
      exact Or.inr ⟨by simp [ht, hc'], by simp [bodySchemaParseText, ht, hc']⟩
  | none => exact Or.inr ⟨by simp [ht], by simp [bodySchemaParseText, ht]⟩

lemma bodySchemaParseForm_cases (schemas : BodySchemas) (ct : String) (val : Req) :
    (∃ fs, schemas.formData = some fs ∧
      (strIncludes ct "multipart/form-data" ||
        strIncludes ct "application/x-www-form-urlencoded") = true ∧
      bodySchemaParseForm schemas ct val = formBranch fs ct val) ∨
    ((schemas.formData.isSome && (strIncludes ct "multipart/form-data" ||
        strIncludes ct "application/x-www-form-urlencoded")) = false ∧
      bodySchemaParseForm schemas ct val = bodySchemaParseText schemas ct val) := by
  cases hf : schemas.formData with
  | some fs =>
    by_cases hc : (strIncludes ct "multipart/form-data" ||
        strIncludes ct "application/x-www-form-urlencoded") = true
    · exact Or.inl ⟨fs, rfl, hc, by simp [bodySchemaParseForm, hf, hc]⟩
    · have hc' : (strIncludes ct "multipart/form-data" ||
          strIncludes ct "application/x-www-form-urlencoded") = false := by simpa using hc
      exact Or.inr ⟨by simp [hf, hc'], by simp [bodySchemaParseForm, hf, hc']⟩
  | none => exact Or.inr ⟨by simp [hf], by simp [bodySchemaParseForm, hf]⟩

lemma bodySchemaParse_top_cases (schemas : BodySchemas) (val : Req) :
    (∃ js, schemas.json = some js ∧
      strIncludes ((headersGet val "content-type").getD "") "application/json" = true ∧
      bodySchemaParse schemas (.request val) = jsonBranch js val) ∨
    ((schemas.json.isSome &&
        strIncludes ((headersGet val "content-type").getD "") "application/json") = false ∧
      bodySchemaParse schemas (.request val) =
        bodySchemaParseForm schemas ((headersGet val "content-type").getD "") val) := by
  cases hj : schemas.json with
  | some js =>
    by_cases hc : strIncludes ((headersGet val "content-type").getD "") "application/json" = true
    · exact Or.inl ⟨js, rfl, hc, by simp [bodySchemaParse, hj, hc]⟩
    · have hc' : strIncludes ((headersGet val "content-type").getD "") "application/json" = false := by
        simpa using hc
      exact Or.inr ⟨by simp [hj, hc'], by simp [bodySchemaParse, hj, hc']⟩
  | none => exact Or.inr ⟨by simp [hj], by simp [bodySchemaParse, hj]⟩

lemma bodySchemaParse_branches (schemas : BodySchemas) (val : Req) (ct : String)
    (hct : (headersGet val "content-type").getD "" = ct) :
    (∃ js, schemas.json = some js ∧ strIncludes ct "application/json" = true ∧
      bodySchemaParse schemas (.request val) = jsonBranch js val) ∨
    ((schemas.json.isSome && strIncludes ct "application/json") = false ∧
      ∃ fs, schemas.formData = some fs ∧
        (strIncludes ct "multipart/form-data" ||
          strIncludes ct "application/x-www-form-urlencoded") = true ∧
        bodySchemaParse schemas (.request val) = formBranch fs ct val) ∨
    ((schemas.json.isSome && strIncludes ct "application/json") = false ∧
      (schemas.formData.isSome && (strIncludes ct "multipart/form-data" ||
        strIncludes ct "application/x-www-form-urlencoded")) = false ∧
      ∃ ts, schemas.text = some ts ∧ (strStartsWith ct "text/" || ct = "") = true ∧
        bodySchemaParse schemas (.request val) = textBranch ts val) ∨
    ((schemas.json.isSome && strIncludes ct "application/json") = false ∧
      (schemas.formData.isSome && (strIncludes ct "multipart/form-data" ||
        strIncludes ct "application/x-www-form-urlencoded")) = false ∧
      (schemas.text.isSome && (strStartsWith ct "text/" || ct = "")) = false ∧
      bodySchemaParse schemas (.request val) = noMatchBranch schemas ct val) := by
  subst hct
  rcases bodySchemaParse_top_cases schemas val with ⟨js, hj, hc, heq⟩ | ⟨hnj, heq⟩
  · exact Or.inl ⟨js, hj, hc, heq⟩
  · rcases bodySchemaParseForm_cases schemas ((headersGet val "content-type").getD "") val with
      ⟨fs, hf, hc, heq2⟩ | ⟨hnf, heq2⟩
    · exact Or.inr (Or.inl ⟨hnj, fs, hf, hc, heq.trans heq2⟩)
    · rcases bodySchemaParseText_cases schemas ((headersGet val "content-type").getD "") val with
        ⟨ts, ht, hc, heq3⟩ | ⟨hnt, heq3⟩
      · exact Or.inr (Or.inr (Or.inl ⟨hnj, hnf, ts, ht, hc, (heq.trans heq2).trans heq3⟩))
      · exact Or.inr (Or.inr (Or.inr ⟨hnj, hnf, hnt, (heq.trans heq2).trans heq3⟩))

/-! ## Claim C3 — fixed dispatch priority, one branch per validation -/

/-- C3: body content-type dispatch follows the fixed priority
structured-data before form before text.  A content-type matching both a
declared JSON category and a declared form category takes the JSON branch;
one matching both a declared form and a declared text category (the JSON
branch not being triggered) takes the form branch; and every validation is
handled by exactly one branch of the chain. -/
theorem c3_dispatch_priority (schemas : BodySchemas) (val : Req) (ct : String)
    (hct : (headersGet val "content-type").getD "" = ct) :
    (∀ js fs, schemas.json = some js → schemas.formData = some fs →
      strIncludes ct "application/json" = true →
      (strIncludes ct "multipart/form-data" ||
        strIncludes ct "application/x-www-form-urlencoded") = true →
      bodySchemaParse schemas (.request val) = jsonBranch js val) ∧
    (∀ fs ts, schemas.formData = some fs → schemas.text = some ts →
      (schemas.json.isSome && strIncludes ct "application/json") = false →
      (strIncludes ct "multipart/form-data" ||
        strIncludes ct "application/x-www-form-urlencoded") = true →
      (strStartsWith ct "text/" || ct = "") = true →
      bodySchemaParse schemas (.request val) = formBranch fs ct val) ∧
    ((∃ js, schemas.json = some js ∧ strIncludes ct "application/json" = true ∧
      bodySchemaParse schemas (.request val) = jsonBranch js val) ∨
    ((schemas.json.isSome && strIncludes ct "application/json") = false ∧
      ∃ fs, schemas.formData = some fs ∧
        (strIncludes ct "multipart/form-data" ||
          strIncludes ct "application/x-www-form-urlencoded") = true ∧
        bodySchemaParse schemas (.request val) = formBranch fs ct val) ∨
    ((schemas.json.isSome && strIncludes ct "application/json") = false ∧
      (schemas.formData.isSome && (strIncludes ct "multipart/form-data" ||
        strIncludes ct "application/x-www-form-urlencoded")) = false ∧
      ∃ ts, schemas.text = some ts ∧ (strStartsWith ct "text/" || ct = "") = true ∧
        bodySchemaParse schemas (.request val) = textBranch ts val) ∨
    ((schemas.json.isSome && strIncludes ct "application/json") = false ∧
      (schemas.formData.isSome && (strIncludes ct "multipart/form-data" ||
        strIncludes ct "application/x-www-form-urlencoded")) = false ∧
      (schemas.text.isSome && (strStartsWith ct "text/" || ct = "")) = false ∧
      bodySchemaParse schemas (.request val) = noMatchBranch schemas ct val)) := by
  refine ⟨?_, ?_, bodySchemaParse_branches schemas val ct hct⟩
  · intro js fs hj hf hcj hcf
    subst hct
    simp [bodySchemaParse, hj, hcj]
  · intro fs ts hf ht hnj hcf hctxt
    subst hct
    rcases bodySchemaParse_top_cases schemas val with ⟨js, hj, hc, heq⟩ | ⟨hnj', heq⟩
    · rw [hj, Option.isSome_some, Bool.true_and] at hnj
      rw [hnj] at hc
      cases hc
    · rw [heq]
      simp [bodySchemaParseForm, hf, hcf]

/-- Shared schema for witnesses: an engine validator accepting every value
unchanged. -/
def passSchema : ZodSchema := fun v => .ok v

/-- Shared URL for witnesses. -/
def sampleUrl : URLModel :=
  { href := "https://example.com/api", protocol := "https:",
    hostname := "example.com", pathname := "/api", search := "" }

/-- Shared request skeleton for witnesses: no headers, no body, every
decode oracle failing. -/
def baseReq : Req :=
  { urlM := sampleUrl, method := "POST", mode := "cors", headersList := [],
    bodyStream := none,
    jsonDecode := .error "unused", formDataDecode := .error "unused",
    textDecode := .error "unused", cloneTextDecode := .error "unused",
    strippedFormDataDecode := .error "unused" }

/-- Closed witness for `c3_dispatch_priority`: an ambiguous content-type
naming both multipart and JSON takes the JSON branch when both categories
are declared; one matching both form and text tokens takes the form branch
when only those two are declared. -/
theorem c3_dispatch_priority_witness :
    bodySchemaParse { json := some passSchema, formData := some passSchema, text := none }
      (.request { baseReq with
        headersList := [("content-type", "multipart/form-data; application/json")],
        bodyStream := some { data := "b", disturbed := false },
        jsonDecode := .ok (.str "j") }) =
      jsonBranch passSchema { baseReq with
        headersList := [("content-type", "multipart/form-data; application/json")],
        bodyStream := some { data := "b", disturbed := false },
        jsonDecode := .ok (.str "j") } ∧
    bodySchemaParse { json := none, formData := some passSchema, text := some passSchema }
      (.request { baseReq with
        headersList := [("content-type", "text/x; application/x-www-form-urlencoded")],
        bodyStream := some { data := "b", disturbed := false } }) =
      formBranch passSchema "text/x; application/x-www-form-urlencoded"
        { baseReq with
          headersList := [("content-type", "text/x; application/x-www-form-urlencoded")],
          bodyStream := some { data := "b", disturbed := false } } := by
  constructor
  · exact (c3_dispatch_priority
      { json := some passSchema, formData := some passSchema, text := none }
      { baseReq with
        headersList := [("content-type", "multipart/form-data; application/json")],
        bodyStream := some { data := "b", disturbed := false },
        jsonDecode := .ok (.str "j") }
      "multipart/form-data; application/json" rfl).1 passSchema passSchema rfl rfl
      (by decide) (by decide)
  · exact (c3_dispatch_priority
      { json := none, formData := some passSchema, text := some passSchema }
      { baseReq with
        headersList := [("content-type", "text/x; application/x-www-form-urlencoded")],
        bodyStream := some { data := "b", disturbed := false } }
      "text/x; application/x-www-form-urlencoded" rfl).2.1 passSchema passSchema rfl rfl
      rfl (by decide) (by decide)

/-! ## Claim C5 — the no-match failure -/

/-- Schemas declaring only the JSON category, used by the C5 analysis. -/
def c5schemas : BodySchemas := { json := some passSchema, formData := none, text := none }

/-- A request with content-type `application/xml` and no body stream. -/
def c5req : Req := { baseReq with headersList := [("content-type", "application/xml")] }

/-- C5 counterexample: with only the JSON category declared, content-type
`application/xml` (matching no declared branch) and no body stream, the
failure is "Request body is required" — not a Content-Type mismatch — so
the claim's unconditional mismatch error does not hold. -/
theorem c5_mismatch_counterexample :
    bodySchemaParse c5schemas (.request c5req) = .error (.str "Request body is required") ∧
    strIncludes "Request body is required" "Content-Type mismatch" = false := by
  exact ⟨rfl, by decide⟩

/-- C5 (amended): when at least one category is declared, no declared
category's branch matches the content-type, and the request carries a body
stream, the failure is the Content-Type mismatch error enumerating every
expected media type of the declared categories (`application/json` for
structured; multipart and url-encoded tokens for form; `text/*` for text)
and echoing the received content-type, or a placeholder when the header is
absent; when the request carries no body stream the failure is "Request
body is required" instead. -/
theorem c5_content_type_mismatch_amended (schemas : BodySchemas) (val : Req) (ct : String)
    (hct : (headersGet val "content-type").getD "" = ct)
    (hany : (schemas.json.isSome || schemas.formData.isSome || schemas.text.isSome) = true)
    (hjson : (schemas.json.isSome && strIncludes ct "application/json") = false)
    (hform : (schemas.formData.isSome && (strIncludes ct "multipart/form-data" ||
      strIncludes ct "application/x-www-form-urlencoded")) = false)
    (htext : (schemas.text.isSome && (strStartsWith ct "text/" || ct = "")) = false) :
    (val.bodyStream.isSome = true →
      bodySchemaParse schemas (.request val) =
        .error (.str ("Content-Type mismatch. Expected one of: " ++
          String.intercalate ", "
            ((if schemas.json.isSome then ["application/json"] else []) ++
             (if schemas.formData.isSome then
               ["multipart/form-data", "application/x-www-form-urlencoded"] else []) ++
             (if schemas.text.isSome then ["text/*"] else [])) ++
          ", but got: " ++
          (if ct = "" then "(no content-type header)" else ct)))) ∧
    (val.bodyStream.isSome = false →
      bodySchemaParse schemas (.request val) = .error (.str "Request body is required")) := by
  rcases bodySchemaParse_branches schemas val ct hct with
    ⟨js, hj, hc, _⟩ | ⟨_, fs, hf, hc, _⟩ | ⟨_, _, ts, ht, hc, _⟩ | ⟨_, _, _, heq⟩
  · rw [hj] at hjson
    simp [hc] at hjson
  · rw [hf] at hform
    simp [hc] at hform
  · rw [ht] at htext
    simp [hc] at htext
  · constructor
    · intro hbody
      rw [heq]
      simp [noMatchBranch, hany, hbody]
    · intro hbody
      rw [heq]
      simp [noMatchBranch, hany, hbody]

/-- A request with content-type `application/xml` and a pristine body. -/
def c5breq : Req :=
  { baseReq with
    headersList := [("content-type", "application/xml")],
    bodyStream := some { data := "d", disturbed := false } }

/-- Closed witness for `c5_content_type_mismatch_amended`: with a body
present, the mismatch message enumerates the declared JSON media type and
echoes the received `application/xml`. -/
theorem c5_content_type_mismatch_amended_witness :
    bodySchemaParse c5schemas (.request c5breq) =
      .error (.str "Content-Type mismatch. Expected one of: application/json, but got: application/xml") := by
  exact (c5_content_type_mismatch_amended c5schemas c5breq "application/xml"
    rfl rfl (by decide) rfl rfl).1 rfl

/-! ## Claim C6 — the url-encoded two-step decode -/

/-- C6: in the url-encoded form path the request's own form-decoding
capability is tried first; when it succeeds the fallback is never
consulted, when it fails the fallback (clone, read text, parse as
url-encoded parameters) runs, and when both fail the propagated error is
the original first failure, never the fallback's. -/
theorem c6_urlencoded_fallback (schemas : BodySchemas) (fs : ZodSchema) (val : Req) (ct : String)
    (hct : (headersGet val "content-type").getD "" = ct)
    (hfs : schemas.formData = some fs)
    (hjson : (schemas.json.isSome && strIncludes ct "application/json") = false)
    (hurl : strIncludes ct "application/x-www-form-urlencoded" = true)
    (hbody : val.bodyStream.isSome = true) :
    (∀ fd, val.formDataDecode = .ok fd →
      bodySchemaParse schemas (.request val) =
        finishForm fs (formEntriesToObj fd) (consumeBody val)) ∧
    (∀ e1 t, val.formDataDecode = .error e1 → val.cloneTextDecode = .ok t →
      bodySchemaParse schemas (.request val) =
        finishForm fs (urlPairsToObj (parseQueryString t)) val) ∧
    (∀ e1 e2, val.formDataDecode = .error e1 → val.cloneTextDecode = .error e2 →
      bodySchemaParse schemas (.request val) = .error (.str e1)) := by
  have hsel : bodySchemaParse schemas (.request val) = formBranch fs ct val := by
    rcases bodySchemaParse_branches schemas val ct hct with
      ⟨js, hj, hc, _⟩ | ⟨_, fs', hf, _, heq⟩ | ⟨_, hnf, _, _, _, _⟩ | ⟨_, hnf, _, _⟩
    · rw [hj] at hjson
      simp [hc] at hjson
    · rw [hfs] at hf
      injection hf with h
      subst h
      exact heq
    · rw [hfs] at hnf
      simp [hurl] at hnf
    · rw [hfs] at hnf
      simp [hurl] at hnf
  have hform : formBranch fs ct val = urlEncodedPath fs val := by
    simp [formBranch, hbody, hurl]
  rw [hsel, hform]
  refine ⟨?_, ?_, ?_⟩
  · intro fd hfd
    simp [urlEncodedPath, hfd]
  · intro e1 t h1 h2
    simp [urlEncodedPath, h1, h2]
  · intro e1 e2 h1 h2
    simp [urlEncodedPath, h1, h2]

/-- The request driving the C6 witness: url-encoded content-type, a
pristine body, and both decode attempts failing with distinct errors. -/
def c6req : Req :=
  { baseReq with
    headersList := [("content-type", "application/x-www-form-urlencoded")],
    bodyStream := some { data := "a=1", disturbed := false },
    formDataDecode := .error "original formData failure",
    cloneTextDecode := .error "fallback text failure" }

/-- Closed witness for `c6_urlencoded_fallback`: with both decode attempts
failing, the surfaced error is the original `formData()` failure. -/
theorem c6_urlencoded_fallback_witness :
    bodySchemaParse { json := none, formData := some passSchema, text := none }
      (.request c6req) = .error (.str "original formData failure") := by
  exact (c6_urlencoded_fallback { json := none, formData := some passSchema, text := none }
    passSchema c6req "application/x-www-form-urlencoded" rfl rfl rfl (by decide) rfl).2.2
    "original formData failure" "fallback text failure" rfl rfl

/-! ## Claim C7 — zero categories succeed, and the wrapper shape -/

lemma finishForm_shape (fs : ZodSchema) (obj : List (String × Option String)) (post : Req)
    (r : JsValue) (p : Req) (h : finishForm fs obj post = .ok (r, p)) :
    ∃ v, r = .obj [("body", v)] := by
  unfold finishForm at h
  split at h
  · simp at h
  · simp only [Except.ok.injEq, Prod.mk.injEq] at h
    exact ⟨_, h.1.symm⟩

lemma jsonBranch_shape (js : ZodSchema) (val : Req) (r : JsValue) (p : Req)
    (h : jsonBranch js val = .ok (r, p)) : ∃ v, r = .obj [("body", v)] := by
  unfold jsonBranch at h
  split at h
  · simp at h
  · split at h
    · simp at h
    · split at h
      · simp at h
      · simp only [Except.ok.injEq, Prod.mk.injEq] at h
        exact ⟨_, h.1.symm⟩

lemma urlEncodedPath_shape (fs : ZodSchema) (val : Req) (r : JsValue) (p : Req)
    (h : urlEncodedPath fs val = .ok (r, p)) : ∃ v, r = .obj [("body", v)] := by
  unfold urlEncodedPath at h
  split at h
  · exact finishForm_shape _ _ _ _ _ h
  · split at h
    · exact finishForm_shape _ _ _ _ _ h
    · simp at h

lemma multipartPath_shape (fs : ZodSchema) (val : Req) (r : JsValue) (p : Req)
    (h : multipartPath fs val = .ok (r, p)) : ∃ v, r = .obj [("body", v)] := by
  unfold multipartPath at h
  split at h
  · split at h
    · exact finishForm_shape _ _ _ _ _ h
    · split at h
      · exact finishForm_shape _ _ _ _ _ h
      · simp at h
  · split at h
    · exact finishForm_shape _ _ _ _ _ h
    · simp at h

lemma formBranch_shape (fs : ZodSchema) (ct : String) (val : Req) (r : JsValue) (p : Req)
    (h : formBranch fs ct val = .ok (r, p)) : ∃ v, r = .obj [("body", v)] := by
  unfold formBranch at h
  split at h
  · simp at h
  · split at h
    · exact urlEncodedPath_shape _ _ _ _ h
    · exact multipartPath_shape _ _ _ _ h

lemma textBranch_shape (ts : ZodSchema) (val : Req) (r : JsValue) (p : Req)
    (h : textBranch ts val = .ok (r, p)) : ∃ v, r = .obj [("body", v)] := by
  unfold textBranch at h
  split at h
  · simp at h
  · split at h
    · simp at h
    · split at h
      · simp at h
      · simp only [Except.ok.injEq, Prod.mk.injEq] at h
        exact ⟨_, h.1.symm⟩

lemma noMatchBranch_shape (schemas : BodySchemas) (ct : String) (val : Req)
    (r : JsValue) (p : Req) (h : noMatchBranch schemas ct val = .ok (r, p)) :
    ∃ v, r = .obj [("body", v)] := by
  unfold noMatchBranch at h
  split at h
  · split at h
    · simp at h
    · simp at h
  · simp only [Except.ok.injEq, Prod.mk.injEq] at h
    exact ⟨_, h.1.symm⟩

lemma bodySchemaParse_shape (schemas : BodySchemas) (input : ReqInput)
    (r : JsValue) (p : Req) (h : bodySchemaParse schemas input = .ok (r, p)) :
    ∃ v, r = .obj [("body", v)] := by
  cases input with
  | notRequest => simp [bodySchemaParse] at h
  | request val =>
    rcases bodySchemaParse_branches schemas val ((headersGet val "content-type").getD "") rfl with
      ⟨js, _, _, heq⟩ | ⟨_, fs, _, _, heq⟩ | ⟨_, _, ts, _, _, heq⟩ | ⟨_, _, _, heq⟩
    · exact jsonBranch_shape js val r p (heq ▸ h)
    · exact formBranch_shape fs _ val r p (heq ▸ h)
    · exact textBranch_shape ts val r p (heq ▸ h)
    · exact noMatchBranch_shape schemas _ val r p (heq ▸ h)

/-- C7: a body validator constructed with zero declared categories succeeds
on every request-like input with an `undefined` body and no error (leaving
the request untouched); and every successful body validation — whatever the
categories and branch — yields the single-field wrapper
`{ body: <value> }`, never the bare validated value. -/
theorem c7_zero_categories_and_wrapper :
    (∀ val : Req,
      bodySchemaParse { json := none, formData := none, text := none } (.request val) =
        .ok (.obj [("body", JsValue.undef)], val)) ∧
    (∀ (schemas : BodySchemas) (input : ReqInput) (r : JsValue) (post : Req),
      bodySchemaParse schemas input = .ok (r, post) → ∃ v, r = .obj [("body", v)]) := by
  constructor
  · intro val
    simp [bodySchemaParse, bodySchemaParseForm, bodySchemaParseText, noMatchBranch]
  · intro schemas input r post h
    exact bodySchemaParse_shape schemas input r post h

/-- Closed witness for `c7_zero_categories_and_wrapper`: the zero-category
validator succeeds on a concrete request with an `undefined` body, and that
success exhibits the wrapper shape. -/
theorem c7_zero_categories_and_wrapper_witness :
    bodySchemaParse { json := none, formData := none, text := none } (.request baseReq) =
      .ok (.obj [("body", JsValue.undef)], baseReq) ∧
    ∃ v, JsValue.obj [("body", JsValue.undef)] = .obj [("body", v)] := by
  refine ⟨c7_zero_categories_and_wrapper.1 baseReq, ?_⟩
  exact c7_zero_categories_and_wrapper.2 { json := none, formData := none, text := none }
    (.request baseReq) _ baseReq (c7_zero_categories_and_wrapper.1 baseReq)

/-! ## request-schema.ts — the composite request validator

After the preprocess step modelled by `requestValidate`, the composite
schema validates the merged object against `buildResultSchema`'s object
schema, in which every undeclared facet's field is `z.unknown().optional()`
(accepting `undefined`) and the engine's object parse keeps every key
present in its input object — so the keys of the merged object below are
the keys of the final result. -/

/-- The base object schema recovered by `extractBaseSchema` from a
preprocessed search-params sub-validator: its declared shape and its engine
`parseAsync`. -/
structure SPBase where
  shape : List (String × Option FieldSchema)
  parse : List (String × ExtractedVal) → Except VErr JsValue

/-- A search-params sub-validator as the composite validator consumes it:
`extractBaseSchema` either recovers the base object schema or fails. -/
structure SPConfig where
  base : Option SPBase

/-- The base object schema recovered from a headers sub-validator. -/
structure HdrBase where
  shapeKeys : List String
  parse : List (String × Option String) → Except VErr JsValue

/-- A headers sub-validator as the composite validator consumes it. -/
structure HdrConfig where
  base : Option HdrBase

/-- A simple-field validator (method, mode, protocol, hostname, pathname):
an engine schema over one already-extracted string. -/
def SimpleSchema : Type := String → Except VErr JsValue

/-- The composite validator's construction-time configuration: one optional
sub-validator per facet (request-schema.ts:299-317). -/
structure RequestConfig where
  searchParams : Option SPConfig
  body : Option BodySchemas
  headers : Option HdrConfig
  method : Option SimpleSchema
  mode : Option SimpleSchema
  protocol : Option SimpleSchema
  hostname : Option SimpleSchema
  pathname : Option SimpleSchema

/-- One field value of the merged result object (request-schema.ts:402-414):
`undefined`, the URL object, a validated engine value, the captured body
stream (or `null`), or the raw headers object. -/
inductive RVal where
  | undef
  | urlV (u : URLModel)
  | jsv (v : JsValue)
  | streamV (s : Option BodyStream)
  | headersV (h : List (String × String))
deriving Repr

/-- Models `processSearchParams` (request-schema.ts:192-208): build a
multi-map from the URL's query string, recover the base schema (failing
with the extract-base-schema error when impossible), extract the declared
keys and validate the extracted map. -/
def processSearchParams (sp : SPConfig) (urlObj : URLModel) : Except VErr JsValue :=
  match sp.base with
  | none => .error (.str (ERROR_UNABLE_TO_EXTRACT_BASE_SCHEMA.replace "{name}" "searchParams"))
  | some base =>
    match extractSearchParamsObject (.multi (parseQueryString urlObj.search)) base.shape with
    | .error e => .error e
    | .ok obj => base.parse obj

/-- Models `processHeaders` (request-schema.ts:217-231): recover the base
schema, extract the declared header keys and validate the extracted map. -/
def processHeaders (hc : HdrConfig) (requestHeaders : List (String × String)) :
    Except VErr JsValue :=
  match hc.base with
  | none => .error (.str (ERROR_UNABLE_TO_EXTRACT_BASE_SCHEMA.replace "{name}" "headers"))
  | some base => base.parse (extractHeadersObject (headersLookup requestHeaders) base.shapeKeys)

/-- Reads a field off a parsed object value, as the property access at
request-schema.ts:250-251 does. -/
def getField (v : JsValue) (key : String) : JsValue :=
  match v with
  | .obj fields =>
    match fields.find? (fun p => p.1 == key) with
    | some p => p.2
    | none => JsValue.undef
  | _ => JsValue.undef

/-- The data `processBody` returns (request-schema.ts:243-257): the parsed
wrapper, the unwrapped `body` field, the body stream captured BEFORE the
parse, and (in this model) the request state after the parse. -/
structure ProcessBodyResult where
  parsed : JsValue
  bodyValue : JsValue
  originalBody : Option BodyStream
  post : Req

/-- Models `processBody` (request-schema.ts:240-258): the original,
unconsumed body stream reference is read off the request first (line 248,
`request.bodyStream` — the PRE-parse state), then the body sub-validator
runs on the request (line 249, consuming the stream), and the result pairs
the unwrapped value with that pre-captured stream. -/
def processBody (body : BodySchemas) (request : Req) : Except VErr ProcessBodyResult :=
  match bodySchemaParse body (.request request) with
  | .error e => .error e
  | .ok (parsed, post) =>
    .ok { parsed := parsed, bodyValue := getField parsed "body",
          originalBody := request.bodyStream, post := post }

/-- Models `processSimpleField` (request-schema.ts:266-271). -/
def processSimpleField (schema : SimpleSchema) (value : String) : Except VErr JsValue :=
  schema value

/-- Models the ternary `facet ? await process...(facet, ...) : undefined`
used for the search-params and simple-field facets at
request-schema.ts:358-399. -/
def optStep (o : Option α) (f : α → Except VErr JsValue) : Except VErr RVal :=
  match o with
  | some a =>
    match f a with
    | .error e => .error e
    | .ok v => .ok (RVal.jsv v)
  | none => .ok RVal.undef

/-- Models `body ? await processBody(body, val) : {parsed: undefined,
bodyValue: undefined, originalBody: undefined}` (request-schema.ts:363-369). -/
def bodyStep (o : Option BodySchemas) (request : Req) :
    Except VErr (Option ProcessBodyResult) :=
  match o with
  | some bs =>
    match processBody bs request with
    | .error e => .error e
    | .ok r => .ok (some r)
  | none => .ok none

/-- Models `headers ? await processHeaders(headers, val.headers) :
undefined` (request-schema.ts:372-374). -/
def headersStep (o : Option HdrConfig) (requestHeaders : List (String × String)) :
    Except VErr (Option JsValue) :=
  match o with
  | some hc =>
    match processHeaders hc requestHeaders with
    | .error e => .error e
    | .ok v => .ok (some v)
  | none => .ok none

/-- Models the preprocess step of `requestSchema`
(request-schema.ts:348-415): the `instanceof Request` guard, the URL, then
each declared facet processed in source order — search params, body
(capturing the original stream), headers (plus the raw headers
passthrough), method, mode, protocol (scheme with ":" removed), hostname,
pathname — merged into the one result object with the eleven fixed keys of
lines 402-414. -/
def requestValidate (cfg : RequestConfig) (input : ReqInput) :
    Except VErr (List (String × RVal)) :=
  match input with
  | .notRequest => .error (.str ERROR_EXPECTED_REQUEST)
  | .request val =>
    match optStep cfg.searchParams (fun sp => processSearchParams sp val.urlM) with
    | .error e => .error e
    | .ok searchParamsObject =>
      match bodyStep cfg.body val with
      | .error e => .error e
      | .ok bodyResult =>
        match headersStep cfg.headers val.headersList with
        | .error e => .error e
        | .ok headersObject =>
          match optStep cfg.method (fun s => processSimpleField s val.method) with
          | .error e => .error e
          | .ok methodValue =>
            match optStep cfg.mode (fun s => processSimpleField s val.mode) with
            | .error e => .error e
            | .ok modeValue =>
              match optStep cfg.protocol
                  (fun s => processSimpleField s (val.urlM.protocol.replace ":" "")) with
              | .error e => .error e
              | .ok protocolValue =>
                match optStep cfg.hostname (fun s => processSimpleField s val.urlM.hostname) with
                | .error e => .error e
                | .ok hostnameValue =>
                  match optStep cfg.pathname (fun s => processSimpleField s val.urlM.pathname) with
                  | .error e => .error e
                  | .ok pathnameValue =>
                    .ok [("url", .urlV val.urlM),
                         ("searchParamsObject", searchParamsObject),
                         ("body", match bodyResult with
                           | some r => .streamV r.originalBody
                           | none => .undef),
                         ("bodyObject", match bodyResult with
                           | some r => .jsv r.bodyValue
                           | none => .undef),
                         ("headers", match cfg.headers with
                           | some _ => .headersV val.headersList
                           | none => .undef),
                         ("headersObj", match headersObject with
                           | some v => .jsv v
                           | none => .undef),
                         ("method", methodValue),
                         ("mode", modeValue),
                         ("protocol", protocolValue),
                         ("hostname", hostnameValue),
                         ("pathname", pathnameValue)]

/-- Looks one facet key up in the merged result object. -/
def resLookup (out : List (String × RVal)) (key : String) : Option RVal :=
  (out.find? (fun p => p.1 == key)).map (·.2)

/-! ## Claim C2 — facet presence in the composite result -/

lemma optStep_inv (o : Option α) (f : α → Except VErr JsValue) (rv : RVal)
    (h : optStep o f = .ok rv) :
    (o = none → rv = .undef) ∧ (∀ a, o = some a → ∃ v, rv = .jsv v) := by
  cases o with
  | none =>
    simp only [optStep, Except.ok.injEq] at h
    exact ⟨fun _ => h.symm, by simp⟩
  | some a =>
    refine ⟨by simp, fun a' _ => ?_⟩
    cases hf : f a with
    | error e =>
      simp only [optStep, hf] at h
      exact Except.noConfusion h
    | ok v =>
      simp only [optStep, hf, Except.ok.injEq] at h
      exact ⟨v, h.symm⟩

lemma bodyStep_inv (o : Option BodySchemas) (request : Req) (res : Option ProcessBodyResult)
    (h : bodyStep o request = .ok res) :
    (o = none → res = none) ∧ (∀ bs, o = some bs → ∃ r, res = some r) := by
  cases o with
  | none =>
    simp only [bodyStep, Except.ok.injEq] at h
    exact ⟨fun _ => h.symm, by simp⟩
  | some bs =>
    refine ⟨by simp, fun bs' _ => ?_⟩
    cases hf : processBody bs request with
    | error e =>
      simp only [bodyStep, hf] at h
      exact Except.noConfusion h
    | ok r =>
      simp only [bodyStep, hf, Except.ok.injEq] at h
      exact ⟨r, h.symm⟩

lemma headersStep_inv (o : Option HdrConfig) (requestHeaders : List (String × String))
    (res : Option JsValue) (h : headersStep o requestHeaders = .ok res) :
    (o = none → res = none) ∧ (∀ hc, o = some hc → ∃ v, res = some v) := by
  cases o with
  | none =>
    simp only [headersStep, Except.ok.injEq] at h
    exact ⟨fun _ => h.symm, by simp⟩
  | some hc =>
    refine ⟨by simp, fun hc' _ => ?_⟩
    cases hf : processHeaders hc requestHeaders with
    | error e =>
      simp only [headersStep, hf] at h
      exact Except.noConfusion h
    | ok v =>
      simp only [headersStep, hf, Except.ok.injEq] at h
      exact ⟨v, h.symm⟩

/-- The composite configuration declaring no optional facet at all. -/
def c2cfg : RequestConfig :=
  { searchParams := none, body := none, headers := none, method := none,
    mode := none, protocol := none, hostname := none, pathname := none }

/-- C2 counterexample: a composite validator built with NO optional facet
still produces a result object carrying the `method` facet key (bound to
`undefined`) — with every other facet key likewise present — so a facet
whose sub-validator was not supplied DOES appear in the dynamic result
object; it merely never carries validated data. -/
theorem c2_presence_counterexample :
    c2cfg.method = none ∧
    requestValidate c2cfg (.request baseReq) =
      .ok [("url", .urlV sampleUrl), ("searchParamsObject", .undef), ("body", .undef),
           ("bodyObject", .undef), ("headers", .undef), ("headersObj", .undef),
           ("method", .undef), ("mode", .undef), ("protocol", .undef),
           ("hostname", .undef), ("pathname", .undef)] ∧
    "method" ∈ ([("url", RVal.urlV sampleUrl), ("searchParamsObject", RVal.undef),
      ("body", RVal.undef), ("bodyObject", RVal.undef), ("headers", RVal.undef),
      ("headersObj", RVal.undef), ("method", RVal.undef), ("mode", RVal.undef),
      ("protocol", RVal.undef), ("hostname", RVal.undef),
      ("pathname", RVal.undef)].map Prod.fst) := by
  exact ⟨rfl, rfl, by simp⟩

/-- C2 (amended): for any composite validator built with a subset `S` of
the optional facets, a successful validation's result object binds `url`
and every facet in `S` to validated data, and binds every facet not in `S`
to `undefined`: an unsupplied facet never carries validated data, though
its key still appears (bound to `undefined`) in the dynamic result
object. -/
theorem c2_presence_amended (cfg : RequestConfig) (val : Req)
    (out : List (String × RVal))
    (h : requestValidate cfg (.request val) = .ok out) :
    resLookup out "url" = some (.urlV val.urlM) ∧
    ((cfg.searchParams = none → resLookup out "searchParamsObject" = some .undef) ∧
      (∀ sp, cfg.searchParams = some sp →
        ∃ v, resLookup out "searchParamsObject" = some (.jsv v))) ∧
    ((cfg.body = none →
        resLookup out "body" = some .undef ∧ resLookup out "bodyObject" = some .undef) ∧
      (∀ bs, cfg.body = some bs →
        (∃ s, resLookup out "body" = some (.streamV s)) ∧
        (∃ v, resLookup out "bodyObject" = some (.jsv v)))) ∧
    ((cfg.headers = none →
        resLookup out "headers" = some .undef ∧ resLookup out "headersObj" = some .undef) ∧
      (∀ hc, cfg.headers = some hc →
        resLookup out "headers" = some (.headersV val.headersList) ∧
        (∃ v, resLookup out "headersObj" = some (.jsv v)))) ∧
    ((cfg.method = none → resLookup out "method" = some .undef) ∧
      (∀ s, cfg.method = some s → ∃ v, resLookup out "method" = some (.jsv v))) ∧
    ((cfg.mode = none → resLookup out "mode" = some .undef) ∧
      (∀ s, cfg.mode = some s → ∃ v, resLookup out "mode" = some (.jsv v))) ∧
    ((cfg.protocol = none → resLookup out "protocol" = some .undef) ∧
      (∀ s, cfg.protocol = some s → ∃ v, resLookup out "protocol" = some (.jsv v))) ∧
    ((cfg.hostname = none → resLookup out "hostname" = some .undef) ∧
      (∀ s, cfg.hostname = some s → ∃ v, resLookup out "hostname" = some (.jsv v))) ∧
    ((cfg.pathname = none → resLookup out "pathname" = some .undef) ∧
      (∀ s, cfg.pathname = some s → ∃ v, resLookup out "pathname" = some (.jsv v))) := by
  unfold requestValidate at h
  cases hsp : optStep cfg.searchParams (fun sp => processSearchParams sp val.urlM) with
  | error e => simp only [hsp] at h; exact Except.noConfusion h
  | ok searchParamsObject =>
  simp only [hsp] at h
  cases hbody : bodyStep cfg.body val with
  | error e => simp only [hbody] at h; exact Except.noConfusion h
  | ok bodyResult =>
  simp only [hbody] at h
  cases hhdr : headersStep cfg.headers val.headersList with
  | error e => simp only [hhdr] at h; exact Except.noConfusion h
  | ok headersObject =>
  simp only [hhdr] at h
  cases hmet : optStep cfg.method (fun s => processSimpleField s val.method) with
  | error e => simp only [hmet] at h; exact Except.noConfusion h
  | ok methodValue =>
  simp only [hmet] at h
  cases hmode : optStep cfg.mode (fun s => processSimpleField s val.mode) with
  | error e => simp only [hmode] at h; exact Except.noConfusion h
  | ok modeValue =>
  simp only [hmode] at h
  cases hprot : optStep cfg.protocol
      (fun s => processSimpleField s (val.urlM.protocol.replace ":" "")) with
  | error e => simp only [hprot] at h; exact Except.noConfusion h
  | ok protocolValue =>
  simp only [hprot] at h
  cases hhost : optStep cfg.hostname (fun s => processSimpleField s val.urlM.hostname) with
  | error e => simp only [hhost] at h; exact Except.noConfusion h
  | ok hostnameValue =>
  simp only [hhost] at h
  cases hpath : optStep cfg.pathname (fun s => processSimpleField s val.urlM.pathname) with
  | error e => simp only [hpath] at h; exact Except.noConfusion h
  | ok pathnameValue =>
  simp only [hpath, Except.ok.injEq] at h
  subst h
  have hspv := optStep_inv _ _ _ hsp
  have hbodyv := bodyStep_inv _ _ _ hbody
  have hhdrv := headersStep_inv _ _ _ hhdr
  have hmetv := optStep_inv _ _ _ hmet
  have hmodev := optStep_inv _ _ _ hmode
  have hprotv := optStep_inv _ _ _ hprot
  have hhostv := optStep_inv _ _ _ hhost
  have hpathv := optStep_inv _ _ _ hpath
  refine ⟨rfl, ⟨?_, ?_⟩, ⟨?_, ?_⟩, ⟨?_, ?_⟩, ⟨?_, ?_⟩, ⟨?_, ?_⟩, ⟨?_, ?_⟩, ⟨?_, ?_⟩, ⟨?_, ?_⟩⟩
  · intro hn
    obtain rfl := hspv.1 hn
    rfl
  · intro sp hs
    obtain ⟨v, hv⟩ := hspv.2 sp hs
    subst hv
    exact ⟨v, rfl⟩
  · intro hn
    obtain rfl := hbodyv.1 hn
    exact ⟨rfl, rfl⟩
  · intro bs hs
    obtain ⟨r, hr⟩ := hbodyv.2 bs hs
    subst hr
    exact ⟨⟨r.originalBody, rfl⟩, ⟨r.bodyValue, rfl⟩⟩
  · intro hn
    obtain rfl := hhdrv.1 hn
    rw [hn]
    exact ⟨rfl, rfl⟩
  · intro hc hs
    obtain ⟨v, hv⟩ := hhdrv.2 hc hs
    subst hv
    rw [hs]
    exact ⟨rfl, ⟨v, rfl⟩⟩
  · intro hn
    obtain rfl := hmetv.1 hn
    rfl
  · intro s hs
    obtain ⟨v, hv⟩ := hmetv.2 s hs
    subst hv
    exact ⟨v, rfl⟩
  · intro hn
    obtain rfl := hmodev.1 hn
    rfl
  · intro s hs
    obtain ⟨v, hv⟩ := hmodev.2 s hs
    subst hv
    exact ⟨v, rfl⟩
  · intro hn
    obtain rfl := hprotv.1 hn
    rfl
  · intro s hs
    obtain ⟨v, hv⟩ := hprotv.2 s hs
    subst hv
    exact ⟨v, rfl⟩
  · intro hn
    obtain rfl := hhostv.1 hn
    rfl
  · intro s hs
    obtain ⟨v, hv⟩ := hhostv.2 s hs
    subst hv
    exact ⟨v, rfl⟩
  · intro hn
    obtain rfl := hpathv.1 hn
    rfl
  · intro s hs
    obtain ⟨v, hv⟩ := hpathv.2 s hs
    subst hv
    exact ⟨v, rfl⟩

/-- The composite configuration declaring only a method sub-validator. -/
def c2cfgB : RequestConfig := { c2cfg with method := some (fun s => .ok (.str s)) }

/-- Closed witness for `c2_presence_amended`: with only `method` declared,
the result binds `url` to the URL, `method` to validated data, and an
undeclared facet (`searchParamsObject`) to `undefined`. -/
theorem c2_presence_amended_witness :
    resLookup [("url", RVal.urlV sampleUrl), ("searchParamsObject", RVal.undef),
      ("body", RVal.undef), ("bodyObject", RVal.undef), ("headers", RVal.undef),
      ("headersObj", RVal.undef), ("method", RVal.jsv (.str "POST")), ("mode", RVal.undef),
      ("protocol", RVal.undef), ("hostname", RVal.undef), ("pathname", RVal.undef)]
      "url" = some (.urlV baseReq.urlM) ∧
    resLookup [("url", RVal.urlV sampleUrl), ("searchParamsObject", RVal.undef),
      ("body", RVal.undef), ("bodyObject", RVal.undef), ("headers", RVal.undef),
      ("headersObj", RVal.undef), ("method", RVal.jsv (.str "POST")), ("mode", RVal.undef),
      ("protocol", RVal.undef), ("hostname", RVal.undef), ("pathname", RVal.undef)]
      "searchParamsObject" = some .undef ∧
    ∃ v, resLookup [("url", RVal.urlV sampleUrl), ("searchParamsObject", RVal.undef),
      ("body", RVal.undef), ("bodyObject", RVal.undef), ("headers", RVal.undef),
      ("headersObj", RVal.undef), ("method", RVal.jsv (.str "POST")), ("mode", RVal.undef),
      ("protocol", RVal.undef), ("hostname", RVal.undef), ("pathname", RVal.undef)]
      "method" = some (.jsv v) := by
  have h := c2_presence_amended c2cfgB baseReq
    [("url", RVal.urlV sampleUrl), ("searchParamsObject", RVal.undef),
      ("body", RVal.undef), ("bodyObject", RVal.undef), ("headers", RVal.undef),
      ("headersObj", RVal.undef), ("method", RVal.jsv (.str "POST")), ("mode", RVal.undef),
      ("protocol", RVal.undef), ("hostname", RVal.undef), ("pathname", RVal.undef)] rfl
  exact ⟨h.1, h.2.1.1 rfl, h.2.2.2.2.1.2 (fun s => .ok (.str s)) rfl⟩

/-! ## Claim C4 — the body stream is captured before consumption -/

/-- C4: whenever a declared body sub-validator succeeds inside the
composite validation, the stream reference surfaced as the result's `body`
is the one read off the request BEFORE the sub-validator consumed the
stream: it equals the pre-parse stream (undisturbed if the request's was),
and whenever the parse changed the stream state, it differs from the
drained post-parse stream. -/
theorem c4_body_captured_before_consumption (body : BodySchemas) (request : Req)
    (res : ProcessBodyResult) (h : processBody body request = .ok res) :
    res.originalBody = request.bodyStream ∧
    (∀ s, request.bodyStream = some s → s.disturbed = false →
      res.originalBody = some s ∧
      res.originalBody ≠ some { data := s.data, disturbed := true }) ∧
    (res.post.bodyStream ≠ request.bodyStream →
      res.originalBody ≠ res.post.bodyStream) := by
  unfold processBody at h
  split at h
  · exact Except.noConfusion h
  · simp only [Except.ok.injEq] at h
    subst h
    refine ⟨rfl, ?_, ?_⟩
    · intro s hs hd
      refine ⟨hs, ?_⟩
      rw [hs]
      intro hc
      simp only [Option.some.injEq] at hc
      rw [hc] at hd
      simp at hd
    · intro hne
      exact fun hc => hne (hc.symm)

/-- The request driving the C4 witness: a JSON body with a pristine
stream. -/
def c4req : Req :=
  { baseReq with
    headersList := [("content-type", "application/json")],
    bodyStream := some { data := "raw-json-bytes", disturbed := false },
    jsonDecode := .ok (.obj [("name", .str "John")]) }

/-- The result `processBody` produces on `c4req` with a declared JSON
category. -/
def c4res : ProcessBodyResult :=
  { parsed := .obj [("body", .obj [("name", .str "John")])],
    bodyValue := .obj [("name", .str "John")],
    originalBody := some { data := "raw-json-bytes", disturbed := false },
    post := consumeBody c4req }

/-- Closed witness for `c4_body_captured_before_consumption`: on a concrete
JSON-body validation the surfaced stream is the pristine pre-parse
reference while the post-parse stream is drained, and the two differ. -/
theorem c4_body_captured_before_consumption_witness :
    c4req.bodyStream = some { data := "raw-json-bytes", disturbed := false } ∧
    c4res.originalBody = c4req.bodyStream ∧
    c4res.post.bodyStream = some { data := "raw-json-bytes", disturbed := true } ∧
    c4res.originalBody ≠ c4res.post.bodyStream := by
  have h := c4_body_captured_before_consumption
    { json := some passSchema, formData := none, text := none } c4req c4res rfl
  exact ⟨rfl, h.1, rfl, h.2.2 (by decide)⟩

end ZodRequest
